import Mathlib

/-!
Verification of the analog gauge widget (`gauge.py`, class `AnalogGaugeWidget`).

The widget's numeric state and its public operations are embedded as pure
Lean functions over a `GaugeState` record.  Python numbers are modelled as
rationals; Python `int()` truncation toward zero is `pyInt`; Python's floor
division `//` is modelled with `Int.floor` of the exact quotient.  Qt colors
are modelled by the inductive `QtColor`.  Signal emissions (`valueChanged`)
are returned alongside the new state.  The pointer-move handler is
parametrized by the raw remapped value that the `atan2`-based angle-to-value
mapping produces (the transcendental mapping itself is outside the rational
fragment; every property below is about the handler's behaviour as a
function of that raw value, which is exactly how the handler uses it).
-/

namespace Gauge

/-- Python `int()` truncation toward zero, on rationals. -/
def pyInt (q : ℚ) : ℤ := if q < 0 then -⌊-q⌋ else ⌊q⌋

/-- Colors appearing in the widget: the named Qt colors it uses and
RGBA colors built by the `set_*Color` methods. -/
inductive QtColor
  | red
  | yellow
  | green
  | transparent
  | rgba (r g b a : ℤ)
  deriving DecidableEq, Repr

/-- The mutable state of `AnalogGaugeWidget` relevant to its numeric and
interactive behaviour (fields keep the Python attribute names). -/
structure GaugeState where
  NeedleColor : QtColor
  NeedleColorReleased : QtColor
  NeedleColorDrag : QtColor
  value_min : ℚ
  value_max : ℚ
  value : ℚ
  value_offset : ℚ
  value_needle_snapzone : ℚ
  last_value : ℚ
  scale_angle_start_value : ℚ
  scale_angle_size : ℚ
  angle_offset : ℚ
  scala_main_count : ℤ
  scala_subdiv_count : ℤ
  scale_polygon_colors : List (ℚ × QtColor)
  deriving DecidableEq, Repr

/-- The state built by `AnalogGaugeWidget.__init__` (`__init__` calls
`set_scala_main_count(10)` and `set_scale_polygon_colors` with the four
default stops; `0.05 = 1/20`, `0.1 = 1/10`, `0.15 = 3/20`). -/
def initState : GaugeState where
  NeedleColor := .rgba 50 50 50 255
  NeedleColorReleased := .rgba 50 50 50 255
  NeedleColorDrag := .rgba 255 0 0 255
  value_min := 0
  value_max := 1000
  value := 0
  value_offset := 0
  value_needle_snapzone := 1/20
  last_value := 0
  scale_angle_start_value := 135
  scale_angle_size := 270
  angle_offset := 0
  scala_main_count := 10
  scala_subdiv_count := 5
  scale_polygon_colors := [(0, .red), (1/10, .yellow), (3/20, .green), (1, .transparent)]

/-- `update_value(self, value)`: clamp into `[value_min, value_max]`, store,
and emit `valueChanged.emit(int(value))` — note the emission truncates the
*parameter* `value`, which the clamping branches do not reassign. -/
def update_value (s : GaugeState) (value : ℚ) : GaugeState × ℤ :=
  let s' :=
    if value ≤ s.value_min then { s with value := s.value_min }
    else if value ≥ s.value_max then { s with value := s.value_max }
    else { s with value := value }
  (s', pyInt value)

/-- `set_MinValue(self, min)`: raise `value` to `min` if below, then store
`min` as `value_min`, pushed down to `value_max - 1` if `min >= value_max`. -/
def set_MinValue (s : GaugeState) (m : ℚ) : GaugeState :=
  let s₁ := if s.value < m then { s with value := m } else s
  if m ≥ s₁.value_max then { s₁ with value_min := s₁.value_max - 1 }
  else { s₁ with value_min := m }

/-- `set_MaxValue(self, max)`: lower `value` to `max` if above, then store
`max` as `value_max`, pushed up to `value_min + 1` if `max <= value_min`. -/
def set_MaxValue (s : GaugeState) (m : ℚ) : GaugeState :=
  let s₁ := if s.value > m then { s with value := m } else s
  if m ≤ s₁.value_min then { s₁ with value_max := s₁.value_min + 1 }
  else { s₁ with value_max := m }

/-- `set_scala_main_count(self, count)`: floor the argument to 1. -/
def set_scala_main_count (s : GaugeState) (count : ℤ) : GaugeState :=
  { s with scala_main_count := if count < 1 then 1 else count }

/-- `set_scale_polygon_colors(self, color_array)`: the Python guard is
`'list' in str(type(color_array))`, so *any* list (the empty list included)
is stored as given, while `None` and every other non-list value fall back to
the single transparent stop.  A list argument is `some stops`; any non-list
argument is `none`. -/
def set_scale_polygon_colors (s : GaugeState)
    (color_array : Option (List (ℚ × QtColor))) : GaugeState :=
  match color_array with
  | some stops => { s with scale_polygon_colors := stops }
  | none => { s with scale_polygon_colors := [(0, QtColor.transparent)] }

/-- `set_start_scale_angle(self, value)`. -/
def set_start_scale_angle (s : GaugeState) (v : ℚ) : GaugeState :=
  { s with scale_angle_start_value := v }

/-- `set_total_scale_angle_size(self, value)`. -/
def set_total_scale_angle_size (s : GaugeState) (v : ℚ) : GaugeState :=
  { s with scale_angle_size := v }

/-- `update_angle_offset(self, offset)`. -/
def update_angle_offset (s : GaugeState) (offset : ℚ) : GaugeState :=
  { s with angle_offset := offset }

/-- `set_NeedleColor`: stores the color and mirrors it into
`NeedleColorReleased`. -/
def set_NeedleColor (s : GaugeState) (r g b a : ℤ) : GaugeState :=
  { s with NeedleColor := .rgba r g b a, NeedleColorReleased := .rgba r g b a }

/-- `set_NeedleColorDrag`. -/
def set_NeedleColorDrag (s : GaugeState) (r g b a : ℤ) : GaugeState :=
  { s with NeedleColorDrag := .rgba r g b a }

/-- `mouseReleaseEvent`: revert the needle color to the released variant. -/
def mouseReleaseEvent (s : GaugeState) : GaugeState :=
  { s with NeedleColor := s.NeedleColorReleased }

/-- `mouseMoveEvent`, parametrized by the raw remapped value.  `none` is the
`x == 0` guard (the handler does nothing); `some v` is the value computed by
the `atan2`/`fmod` remapping.  Inside the snap zone the needle color switches
to the drag variant and the three wraparound branches run; otherwise the
event leaves the state untouched and emits nothing.  The stored `value`
attribute is never assigned by this handler. -/
def mouseMoveEvent (s : GaugeState) (raw : Option ℚ) : GaugeState × Option ℤ :=
  match raw with
  | none => (s, none)
  | some v =>
    if s.value - (s.value_max - s.value_min) * s.value_needle_snapzone ≤ v ∧
        v ≤ s.value + (s.value_max - s.value_min) * s.value_needle_snapzone then
      let s₁ : GaugeState := { s with NeedleColor := s.NeedleColorDrag }
      if s₁.value_max ≤ v ∧ s₁.last_value < (s₁.value_max - s₁.value_min) / 2 then
        ({ s₁ with last_value := s₁.value_min }, some (pyInt s₁.value_max))
      else if s₁.value_max ≤ v ∧ s₁.last_value ≤ s₁.value_max then
        ({ s₁ with last_value := s₁.value_max }, some (pyInt s₁.value_max))
      else
        ({ s₁ with last_value := v }, some (pyInt v))
    else (s, none)

/-- The rotation (in degrees) that `draw_needle` applies to the needle
polygon:
`((value - value_offset - value_min) * scale_angle_size / (value_max - value_min)) + 90 + scale_angle_start_value`. -/
def needle_rotation (s : GaugeState) : ℚ :=
  (s.value - s.value_offset - s.value_min) * s.scale_angle_size /
      (s.value_max - s.value_min) + 90 + s.scale_angle_start_value

/-- The cumulative painter rotations at which `draw_big_scaled_markter`
draws its radial line segments: starting at
`scale_angle_start_value - angle_offset` and rotating by
`scale_angle_size / scala_main_count` after each of the
`range(scala_main_count + 1)` draws. -/
def big_scale_marker_angles (s : GaugeState) : List ℚ :=
  (List.range (s.scala_main_count + 1).toNat).map fun i : ℕ =>
    s.scale_angle_start_value - s.angle_offset +
      (i : ℚ) * (s.scale_angle_size / (s.scala_main_count : ℚ))

/-- `scale_per_div = (value_max - value_min) // scala_main_count` from
`create_scale_marker_values_text` (Python floor division). -/
def scale_per_div (s : GaugeState) : ℚ :=
  (⌊(s.value_max - s.value_min) / (s.scala_main_count : ℚ)⌋ : ℤ)

/-- The label values drawn by `create_scale_marker_values_text`:
`int(value_min + scale_per_div * i)` for `i` in `range(scala_main_count + 1)`. -/
def scale_marker_label_values (s : GaugeState) : List ℤ :=
  (List.range (s.scala_main_count + 1).toNat).map fun i : ℕ =>
    pyInt (s.value_min + scale_per_div s * (i : ℚ))

/-- The public operations of the widget, for properties quantifying over
call sequences. -/
inductive GaugeOp
  | updateValue (v : ℚ)
  | setMinValue (m : ℚ)
  | setMaxValue (m : ℚ)
  | setScalaMainCount (c : ℤ)
  | setScalePolygonColors (ca : Option (List (ℚ × QtColor)))
  | setStartScaleAngle (v : ℚ)
  | setTotalScaleAngleSize (v : ℚ)
  | updateAngleOffset (v : ℚ)
  | setNeedleColorOp (r g b a : ℤ)
  | setNeedleColorDragOp (r g b a : ℤ)
  | mouseMove (raw : Option ℚ)
  | mouseRelease

/-- Apply one public operation to the state (emissions discarded). -/
def applyOp (s : GaugeState) : GaugeOp → GaugeState
  | .updateValue v => (update_value s v).1
  | .setMinValue m => set_MinValue s m
  | .setMaxValue m => set_MaxValue s m
  | .setScalaMainCount c => set_scala_main_count s c
  | .setScalePolygonColors ca => set_scale_polygon_colors s ca
  | .setStartScaleAngle v => set_start_scale_angle s v
  | .setTotalScaleAngleSize v => set_total_scale_angle_size s v
  | .updateAngleOffset v => update_angle_offset s v
  | .setNeedleColorOp r g b a => set_NeedleColor s r g b a
  | .setNeedleColorDragOp r g b a => set_NeedleColorDrag s r g b a
  | .mouseMove raw => (mouseMoveEvent s raw).1
  | .mouseRelease => mouseReleaseEvent s

/-- Apply a sequence of public operations, first one first. -/
def applyOps (s : GaugeState) (ops : List GaugeOp) : GaugeState :=
  ops.foldl applyOp s

/-- Mathematical clamping of `v` into `[lo, hi]`. -/
def clamp (v lo hi : ℚ) : ℚ := max lo (min hi v)

/-- The documented data-model invariant `value_min < value_max`. -/
def BoundsOrdered (s : GaugeState) : Prop := s.value_min < s.value_max

/-- The documented data-model invariant that the stored value lies within
the bounds. -/
def ValueInBounds (s : GaugeState) : Prop :=
  s.value_min ≤ s.value ∧ s.value ≤ s.value_max

theorem pyInt_intCast (n : ℤ) : pyInt (n : ℚ) = n := by
  unfold pyInt
  split
  · rw [← Int.cast_neg, Int.floor_intCast]; ring
  · exact Int.floor_intCast n

theorem value_offset_applyOp (s : GaugeState) (op : GaugeOp) :
    (applyOp s op).value_offset = s.value_offset := by
  cases op <;>
    simp only [applyOp, update_value, set_MinValue, set_MaxValue, set_scala_main_count,
      set_scale_polygon_colors, set_start_scale_angle, set_total_scale_angle_size,
      update_angle_offset, set_NeedleColor, set_NeedleColorDrag, mouseReleaseEvent,
      mouseMoveEvent] <;>
    repeat' first | rfl | split

theorem value_offset_applyOps (ops : List GaugeOp) (s : GaugeState) :
    (applyOps s ops).value_offset = s.value_offset := by
  induction ops generalizing s with
  | nil => rfl
  | cons op ops ih =>
      rw [applyOps, List.foldl_cons, ← applyOps, ih, value_offset_applyOp]

theorem scala_count_applyOp (s : GaugeState) (op : GaugeOp)
    (h : 1 ≤ s.scala_main_count) : 1 ≤ (applyOp s op).scala_main_count := by
  cases op <;>
    simp only [applyOp, update_value, set_MinValue, set_MaxValue, set_scala_main_count,
      set_scale_polygon_colors, set_start_scale_angle, set_total_scale_angle_size,
      update_angle_offset, set_NeedleColor, set_NeedleColorDrag, mouseReleaseEvent,
      mouseMoveEvent] <;>
    repeat' first | exact h | omega | split

theorem scala_count_applyOps (ops : List GaugeOp) (s : GaugeState)
    (h : 1 ≤ s.scala_main_count) : 1 ≤ (applyOps s ops).scala_main_count := by
  induction ops generalizing s with
  | nil => exact h
  | cons op ops ih =>
      rw [applyOps, List.foldl_cons, ← applyOps]
      exact ih _ (scala_count_applyOp s op h)

theorem boundsOrdered_applyOp (s : GaugeState) (op : GaugeOp)
    (h : BoundsOrdered s) : BoundsOrdered (applyOp s op) := by
  unfold BoundsOrdered at h ⊢
  cases op <;>
    simp only [applyOp, update_value, set_MinValue, set_MaxValue, set_scala_main_count,
      set_scale_polygon_colors, set_start_scale_angle, set_total_scale_angle_size,
      update_angle_offset, set_NeedleColor, set_NeedleColorDrag, mouseReleaseEvent,
      mouseMoveEvent] <;>
    (repeat' split) <;>
    simp_all <;>
    linarith

theorem boundsOrdered_applyOps (ops : List GaugeOp) (s : GaugeState)
    (h : BoundsOrdered s) : BoundsOrdered (applyOps s ops) := by
  induction ops generalizing s with
  | nil => exact h
  | cons op ops ih =>
      rw [applyOps, List.foldl_cons, ← applyOps]
      exact ih _ (boundsOrdered_applyOp s op h)

theorem update_value_fields (s : GaugeState) (v : ℚ) :
    (update_value s v).1.value_min = s.value_min ∧
    (update_value s v).1.value_max = s.value_max ∧
    (update_value s v).1.value =
      (if v ≤ s.value_min then s.value_min
       else if v ≥ s.value_max then s.value_max else v) := by
  simp only [update_value]
  (repeat' split) <;> simp

theorem set_MinValue_fields (s : GaugeState) (m : ℚ) :
    (set_MinValue s m).value = (if s.value < m then m else s.value) ∧
    (set_MinValue s m).value_max = s.value_max ∧
    (set_MinValue s m).value_min =
      (if m ≥ s.value_max then s.value_max - 1 else m) := by
  simp only [set_MinValue]
  by_cases h1 : s.value < m
  · simp only [if_pos h1]
    by_cases h2 : m ≥ s.value_max
    · simp [if_pos h2]
    · simp [if_neg h2]
  · simp only [if_neg h1]
    by_cases h2 : m ≥ s.value_max
    · simp [if_pos h2]
    · simp [if_neg h2]

theorem set_MaxValue_fields (s : GaugeState) (m : ℚ) :
    (set_MaxValue s m).value = (if s.value > m then m else s.value) ∧
    (set_MaxValue s m).value_min = s.value_min ∧
    (set_MaxValue s m).value_max =
      (if m ≤ s.value_min then s.value_min + 1 else m) := by
  simp only [set_MaxValue]
  by_cases h1 : s.value > m
  · simp only [if_pos h1]
    by_cases h2 : m ≤ s.value_min
    · simp [if_pos h2]
    · simp [if_neg h2]
  · simp only [if_neg h1]
    by_cases h2 : m ≤ s.value_min
    · simp [if_pos h2]
    · simp [if_neg h2]

/-- Claim C1: for every numeric input `v`, after `update_value(v)` the stored
current value equals `clamp(v, value_min, value_max)`: it is `value_min` when
`v ≤ value_min`, `value_max` when `v ≥ value_max`, and `v` otherwise. -/
theorem update_value_clamps (s : GaugeState) (v : ℚ)
    (h : s.value_min < s.value_max) :
    (update_value s v).1.value = clamp v s.value_min s.value_max ∧
    (v ≤ s.value_min → (update_value s v).1.value = s.value_min) ∧
    (s.value_max ≤ v → (update_value s v).1.value = s.value_max) ∧
    (s.value_min < v → v < s.value_max → (update_value s v).1.value = v) := by
  unfold update_value clamp
  rcases le_or_lt v s.value_min with h1 | h1
  · rw [if_pos h1]
    refine ⟨?_, fun _ => rfl, fun h2 => absurd (h2.trans h1) (not_le.2 h), fun h2 => absurd h1 (not_le.2 h2)⟩
    simp only
    rw [min_eq_right (h1.trans h.le), max_eq_left h1]
  · rw [if_neg (not_le.2 h1)]
    rcases le_or_lt s.value_max v with h2 | h2
    · rw [if_pos h2]
      refine ⟨?_, fun h3 => absurd h1 (not_lt.2 h3), fun _ => rfl, fun _ h3 => absurd h2 (not_le.2 h3)⟩
      simp only
      rw [min_eq_left h2, max_eq_right h.le]
    · rw [if_neg (not_le.2 h2)]
      refine ⟨?_, fun h3 => absurd h1 (not_lt.2 h3), fun h3 => absurd h2 (not_lt.2 h3), fun _ _ => rfl⟩
      simp only
      rw [min_eq_right h2.le, max_eq_right h1.le]

/-- Witness for C1 at the constructed state and input 1500: the bounds are
`0 < 1000` and the stored value is the clamp, i.e. 1000. -/
theorem update_value_clamps_witness :
    initState.value_min < initState.value_max ∧
    (update_value initState 1500).1.value = clamp 1500 initState.value_min initState.value_max ∧
    clamp 1500 initState.value_min initState.value_max = 1000 :=
  ⟨by norm_num [initState],
   (update_value_clamps initState 1500 (by norm_num [initState])).1,
   by norm_num [initState, clamp]⟩

/-- Claim C2, counterexample: `update_value` emits `int(value)` of the *raw*
parameter, not of the clamped stored value: from the constructed state
(`value_min = 0`, `value_max = 1000`), `update_value(1500)` stores 1000 but
emits 1500. -/
theorem update_value_emits_raw_counterexample :
    (update_value initState 1500).2 = 1500 ∧
    (update_value initState 1500).1.value = 1000 ∧
    (update_value initState 1500).2 ≠ pyInt (update_value initState 1500).1.value := by
  refine ⟨?_, ?_, ?_⟩ <;>
    norm_num [update_value, initState]
  · show pyInt ((1500 : ℤ) : ℚ) = 1500
    rw [pyInt_intCast]
  · show pyInt ((1500 : ℤ) : ℚ) ≠ pyInt ((1000 : ℤ) : ℚ)
    rw [pyInt_intCast, pyInt_intCast]
    omega

/-- Claim C2, amended: the value-changed notification emitted by
`update_value(v)` carries `int(v)`, the integer truncation of the raw input,
even when `v` lies outside `[value_min, value_max]` and therefore differs
from the stored clamped value. -/
theorem update_value_emits_raw (s : GaugeState) (v : ℚ) :
    (update_value s v).2 = pyInt v := rfl

/-- Claim C5: a pointer-move event whose remapped raw value lies strictly
outside `[value - snapzone*(value_max - value_min), value + snapzone*(value_max - value_min)]`
causes no state change at all (needle color stays, `value` and `last_value`
stay) and emits no notification. -/
theorem drag_rejected_outside_snapzone (s : GaugeState) (v : ℚ)
    (h : v < s.value - (s.value_max - s.value_min) * s.value_needle_snapzone ∨
         s.value + (s.value_max - s.value_min) * s.value_needle_snapzone < v) :
    mouseMoveEvent s (some v) = (s, none) := by
  simp only [mouseMoveEvent]
  rw [if_neg]
  rintro ⟨h1, h2⟩
  rcases h with h | h <;> linarith

/-- Witness for C5: at the constructed state (`value = 0`, snap zone
`0 ± 50`) a move mapping to raw value 100 is rejected and the state is
untouched. -/
theorem drag_rejected_outside_snapzone_witness :
    (100 : ℚ) >
      initState.value +
        (initState.value_max - initState.value_min) * initState.value_needle_snapzone ∧
    mouseMoveEvent initState (some 100) = (initState, none) :=
  ⟨by norm_num [initState],
   drag_rejected_outside_snapzone initState 100 (Or.inr (by norm_num [initState]))⟩

/-- Claim C7, counterexample: the guard in `set_scale_polygon_colors` is
`'list' in str(type(color_array))`, so the *empty* list is stored as given
(the stored stops become `[]`), not replaced by the single transparent
stop. -/
theorem color_stops_empty_counterexample :
    (set_scale_polygon_colors initState (some [])).scale_polygon_colors = [] ∧
    (set_scale_polygon_colors initState (some [])).scale_polygon_colors ≠
      [(0, QtColor.transparent)] := by
  constructor
  · rfl
  · intro h
    simpa [set_scale_polygon_colors] using h

/-- Claim C7, amended: only a non-list input (`None` or any other non-list
value) makes `set_scale_polygon_colors` fall back to the single fully
transparent stop `[[0.0, transparent]]`; every list input — the empty list
included — is stored exactly as given. -/
theorem color_stops_fallback (s : GaugeState) :
    (set_scale_polygon_colors s none).scale_polygon_colors =
      [(0, QtColor.transparent)] ∧
    ∀ stops, (set_scale_polygon_colors s (some stops)).scale_polygon_colors = stops :=
  ⟨rfl, fun _ => rfl⟩

/-- Claim C10: the pointer-move handler never assigns the stored current
value: for every event (rejected or accepted, any wraparound branch) the
`value` field — and both bounds — are exactly what they were before. -/
theorem mouseMove_preserves_value (s : GaugeState) (raw : Option ℚ) :
    (mouseMoveEvent s raw).1.value = s.value ∧
    (mouseMoveEvent s raw).1.value_min = s.value_min ∧
    (mouseMoveEvent s raw).1.value_max = s.value_max := by
  refine ⟨?_, ?_, ?_⟩ <;>
    (cases raw with
     | none => rfl
     | some v =>
         simp only [mouseMoveEvent]
         (repeat' split) <;> rfl)

/-- Claim C3, counterexample: `set_MinValue(2000)` from the constructed
state first raises `value` to 2000, then (because `2000 ≥ value_max`) stores
`value_min = value_max - 1 = 999` — but it never re-clamps `value`, so the
call leaves `value = 2000 > value_max = 1000`: a single `set_MinValue` call
with a conflicting argument breaks `current_value ≤ value_max`. -/
theorem bounds_invariant_counterexample :
    BoundsOrdered (set_MinValue initState 2000) ∧
    ¬ ((set_MinValue initState 2000).value ≤ (set_MinValue initState 2000).value_max) := by
  norm_num [BoundsOrdered, set_MinValue, initState]

/-- Claim C3, amended: every sequence of public operations preserves
`value_min < value_max`, and `update_value` always leaves `current_value`
within the bounds; but `set_MinValue` keeps `current_value` in bounds only
when its argument is below `value_max` (and `set_MaxValue` only when its
argument is above `value_min`) — a conflicting bound argument pushes
`current_value` outside the bounds. -/
theorem bounds_invariant_amended (s : GaugeState)
    (hb : BoundsOrdered s) (hv : ValueInBounds s) :
    (∀ ops : List GaugeOp, BoundsOrdered (applyOps initState ops)) ∧
    (∀ v, BoundsOrdered (update_value s v).1 ∧ ValueInBounds (update_value s v).1) ∧
    (∀ m, BoundsOrdered (set_MinValue s m) ∧
      (m < s.value_max → ValueInBounds (set_MinValue s m))) ∧
    (∀ m, BoundsOrdered (set_MaxValue s m) ∧
      (s.value_min < m → ValueInBounds (set_MaxValue s m))) := by
  have hb' : s.value_min < s.value_max := hb
  obtain ⟨hv1, hv2⟩ := hv
  refine ⟨fun ops => boundsOrdered_applyOps ops initState ?_, fun v => ⟨?_, ?_⟩,
    fun m => ⟨?_, fun hm => ?_⟩, fun m => ⟨?_, fun hm => ?_⟩⟩
  · show initState.value_min < initState.value_max
    norm_num [initState]
  · show (update_value s v).1.value_min < (update_value s v).1.value_max
    obtain ⟨e1, e2, e3⟩ := update_value_fields s v
    rw [e1, e2]; exact hb'
  · show (update_value s v).1.value_min ≤ (update_value s v).1.value ∧
      (update_value s v).1.value ≤ (update_value s v).1.value_max
    obtain ⟨e1, e2, e3⟩ := update_value_fields s v
    rw [e1, e2, e3]
    split_ifs <;> constructor <;> linarith
  · show (set_MinValue s m).value_min < (set_MinValue s m).value_max
    obtain ⟨e1, e2, e3⟩ := set_MinValue_fields s m
    rw [e2, e3]
    split_ifs <;> linarith
  · show (set_MinValue s m).value_min ≤ (set_MinValue s m).value ∧
      (set_MinValue s m).value ≤ (set_MinValue s m).value_max
    obtain ⟨e1, e2, e3⟩ := set_MinValue_fields s m
    rw [e1, e2, e3]
    split_ifs <;> constructor <;> linarith
  · show (set_MaxValue s m).value_min < (set_MaxValue s m).value_max
    obtain ⟨e1, e2, e3⟩ := set_MaxValue_fields s m
    rw [e2, e3]
    split_ifs <;> linarith
  · show (set_MaxValue s m).value_min ≤ (set_MaxValue s m).value ∧
      (set_MaxValue s m).value ≤ (set_MaxValue s m).value_max
    obtain ⟨e1, e2, e3⟩ := set_MaxValue_fields s m
    rw [e1, e2, e3]
    split_ifs <;> constructor <;> linarith

/-- Witness for the amended C3, fully instantiated at the constructed state:
one conflicting `set_MinValue(2000)` still leaves the bounds ordered, and
`update_value(50)`, `set_MinValue(500)`, `set_MaxValue(500)` (non-conflicting
arguments) preserve both invariants. -/
theorem bounds_invariant_amended_witness :
    BoundsOrdered (applyOps initState [GaugeOp.setMinValue 2000]) ∧
    (BoundsOrdered (update_value initState 50).1 ∧ ValueInBounds (update_value initState 50).1) ∧
    (BoundsOrdered (set_MinValue initState 500) ∧ ValueInBounds (set_MinValue initState 500)) ∧
    (BoundsOrdered (set_MaxValue initState 500) ∧ ValueInBounds (set_MaxValue initState 500)) := by
  obtain ⟨h1, h2, h3, h4⟩ := bounds_invariant_amended initState
    (by norm_num [BoundsOrdered, initState]) (by norm_num [ValueInBounds, initState])
  exact ⟨h1 [GaugeOp.setMinValue 2000], h2 50,
    ⟨(h3 500).1, (h3 500).2 (by norm_num [initState])⟩,
    ⟨(h4 500).1, (h4 500).2 (by norm_num [initState])⟩⟩

/-- State for claim C4: `update_value(1000)` from the constructed state
gives `value = 1000` while `last_value` is still 0. -/
def dragState : GaugeState := (update_value initState 1000).1

/-- Claim C4, counterexample: at `dragState` a move event remapping to raw
value 1000 is inside the snap zone, `raw ≥ value_max` holds and
`last_value = 0` is below the domain midpoint — yet the handler notifies
`int(value_max) = 1000`, not `value_min = 0`: the first wraparound branch
emits `value_max` and only *records* `value_min` into `last_value`. -/
theorem wraparound_counterexample :
    dragState.value_max ≤ 1000 ∧
    dragState.last_value < (dragState.value_min + dragState.value_max) / 2 ∧
    dragState.last_value < (dragState.value_max - dragState.value_min) / 2 ∧
    dragState.value - (dragState.value_max - dragState.value_min) * dragState.value_needle_snapzone ≤ 1000 ∧
    (1000 : ℚ) ≤ dragState.value + (dragState.value_max - dragState.value_min) * dragState.value_needle_snapzone ∧
    (mouseMoveEvent dragState (some 1000)).2 = some 1000 ∧
    pyInt dragState.value_min = 0 ∧
    (mouseMoveEvent dragState (some 1000)).2 ≠ some (pyInt dragState.value_min) := by
  norm_num [dragState, update_value, initState, mouseMoveEvent, pyInt]

/-- Claim C4, amended: during an accepted drag, if `raw ≥ value_max` and
`last_value` is below `(value_max - value_min)/2` (half the range), the
handler *notifies* `int(value_max)` and resets `last_value` to `value_min`;
if `raw ≥ value_max` and `last_value ≤ value_max` (first case not applying),
it notifies `int(value_max)` and records `last_value = value_max`; otherwise
`raw` is committed directly: notified truncated and recorded as
`last_value`. -/
theorem wraparound_policy (s : GaugeState) (v : ℚ)
    (h1 : s.value - (s.value_max - s.value_min) * s.value_needle_snapzone ≤ v)
    (h2 : v ≤ s.value + (s.value_max - s.value_min) * s.value_needle_snapzone) :
    (s.value_max ≤ v → s.last_value < (s.value_max - s.value_min) / 2 →
       (mouseMoveEvent s (some v)).1.last_value = s.value_min ∧
       (mouseMoveEvent s (some v)).2 = some (pyInt s.value_max)) ∧
    (s.value_max ≤ v → ¬ s.last_value < (s.value_max - s.value_min) / 2 →
     s.last_value ≤ s.value_max →
       (mouseMoveEvent s (some v)).1.last_value = s.value_max ∧
       (mouseMoveEvent s (some v)).2 = some (pyInt s.value_max)) ∧
    (¬ (s.value_max ≤ v ∧ s.last_value < (s.value_max - s.value_min) / 2) →
     ¬ (s.value_max ≤ v ∧ s.last_value ≤ s.value_max) →
       (mouseMoveEvent s (some v)).1.last_value = v ∧
       (mouseMoveEvent s (some v)).2 = some (pyInt v)) := by
  refine ⟨fun ha hb => ?_, fun ha hb hc => ?_, fun ha hb => ?_⟩ <;>
    simp only [mouseMoveEvent] <;> rw [if_pos ⟨h1, h2⟩]
  · rw [if_pos ⟨ha, hb⟩]; exact ⟨rfl, rfl⟩
  · rw [if_neg (fun hcon => hb hcon.2), if_pos ⟨ha, hc⟩]; exact ⟨rfl, rfl⟩
  · rw [if_neg ha, if_neg hb]; exact ⟨rfl, rfl⟩

/-- Witness for the amended C4 at `dragState` and raw value 1000 (first
wraparound branch). -/
theorem wraparound_policy_witness :
    (mouseMoveEvent dragState (some 1000)).1.last_value = dragState.value_min ∧
    (mouseMoveEvent dragState (some 1000)).2 = some (pyInt dragState.value_max) :=
  (wraparound_policy dragState 1000
      (by norm_num [dragState, update_value, initState])
      (by norm_num [dragState, update_value, initState])).1
    (by norm_num [dragState, update_value, initState])
    (by norm_num [dragState, update_value, initState])

/-- Claim C6: the needle rotation applied by `draw_needle` is, on every
state reachable by public operations (where `value_offset` is the constant
0 set by `__init__` — no operation ever changes it), the pure function
`(value - value_min) * scale_angle_size / (value_max - value_min) + 90 + scale_angle_start_value`;
and with `value_min = 0`, `value_max = 100`, `scale_angle_start = 135`,
`scale_angle_size = 270` and value 50 the rotation is 360 degrees. -/
theorem needle_rotation_pure (ops : List GaugeOp) :
    needle_rotation (applyOps initState ops) =
      ((applyOps initState ops).value - (applyOps initState ops).value_min) *
          (applyOps initState ops).scale_angle_size /
          ((applyOps initState ops).value_max - (applyOps initState ops).value_min) +
        90 + (applyOps initState ops).scale_angle_start_value ∧
    needle_rotation (applyOps initState
      [GaugeOp.setMaxValue 100, GaugeOp.updateValue 50]) = 360 := by
  constructor
  · unfold needle_rotation
    rw [value_offset_applyOps]
    norm_num [initState]
  · norm_num [applyOps, applyOp, update_value, set_MaxValue, needle_rotation, initState]

/-- Claim C8: with the stored major tick count `N ≥ 1` and integer bounds
`value_min = m < M = value_max`, one repaint draws `N + 1` major tick lines
and `N + 1` scale labels, and the `i`-th label (for `i ≤ N`) shows
`m + i * ((M - m) / N)` with integer floor division (equal to truncating
division here since `M - m > 0`). -/
theorem scale_markers_counts_and_labels (s : GaugeState) (m M : ℤ) (N : ℕ)
    (hm : s.value_min = (m : ℚ)) (hM : s.value_max = (M : ℚ))
    (hmM : m < M) (hN : s.scala_main_count = (N : ℤ)) (hN1 : 1 ≤ N) :
    (big_scale_marker_angles s).length = N + 1 ∧
    (scale_marker_label_values s).length = N + 1 ∧
    ∀ i : ℕ, i ≤ N →
      (scale_marker_label_values s)[i]? =
        some (m + (i : ℤ) * ((M - m) / (N : ℤ))) := by
  have htn : (s.scala_main_count + 1).toNat = N + 1 := by rw [hN]; omega
  have hspd : scale_per_div s = (((M - m) / (N : ℤ) : ℤ) : ℚ) := by
    unfold scale_per_div
    rw [hm, hM, hN]
    have hq : ((M : ℚ) - (m : ℚ)) / (((N : ℤ) : ℤ) : ℚ) =
        (((M - m : ℤ) : ℚ)) / (((N : ℕ)) : ℚ) := by push_cast; ring
    rw [hq, Rat.floor_intCast_div_natCast]
  have key : ∀ i : ℕ, pyInt (s.value_min + scale_per_div s * i) =
      m + (i : ℤ) * ((M - m) / (N : ℤ)) := by
    intro i
    rw [hm, hspd]
    have hc : ((m : ℚ) + (((M - m) / (N : ℤ) : ℤ) : ℚ) * (i : ℕ)) =
        (((m + (i : ℤ) * ((M - m) / (N : ℤ)) : ℤ)) : ℚ) := by push_cast; ring
    rw [hc, pyInt_intCast]
  refine ⟨?_, ?_, fun i hi => ?_⟩
  · simp only [big_scale_marker_angles, htn, List.length_map, List.length_range]
  · simp only [scale_marker_label_values, htn, List.length_map, List.length_range]
  · have hilt : i < N + 1 := by omega
    simp only [scale_marker_label_values, htn, List.getElem?_map, List.getElem?_range, hilt,
      if_true, Option.map_some']
    rw [key i]

/-- Witness for C8 at the constructed state (`m = 0`, `M = 1000`, `N = 10`):
11 tick lines, 11 labels, and the 7th label is `0 + 7 * 100 = 700`. -/
theorem scale_markers_witness :
    (big_scale_marker_angles initState).length = 11 ∧
    (scale_marker_label_values initState).length = 11 ∧
    (scale_marker_label_values initState)[7]? = some 700 := by
  obtain ⟨ha, hb, hc⟩ := scale_markers_counts_and_labels initState 0 1000 10
    (by norm_num [initState]) (by norm_num [initState]) (by norm_num)
    (by norm_num [initState]) (by norm_num)
  refine ⟨ha, hb, ?_⟩
  have := hc 7 (by norm_num)
  simpa using this

/-- Claim C9: after any sequence of public operations the stored major tick
count is at least 1 (so the drawing-time divisions by it are never by zero),
and `set_scala_main_count` floors any argument below 1 to 1. -/
theorem scala_main_count_never_zero (ops : List GaugeOp) (c : ℤ) (hc : c < 1) :
    1 ≤ (applyOps initState ops).scala_main_count ∧
    ((applyOps initState ops).scala_main_count : ℚ) ≠ 0 ∧
    (set_scala_main_count (applyOps initState ops) c).scala_main_count = 1 := by
  have h := scala_count_applyOps ops initState (by norm_num [initState])
  refine ⟨h, ?_, ?_⟩
  · intro h0
    rw [Int.cast_eq_zero] at h0
    omega
  · show (if c < 1 then 1 else c) = 1
    rw [if_pos hc]

/-- Witness for C9 with the empty operation sequence and argument 0. -/
theorem scala_main_count_never_zero_witness :
    1 ≤ (applyOps initState []).scala_main_count ∧
    ((applyOps initState []).scala_main_count : ℚ) ≠ 0 ∧
    (set_scala_main_count (applyOps initState []) 0).scala_main_count = 1 :=
  scala_main_count_never_zero [] 0 (by norm_num)

end Gauge
